import Mathlib

/-!
# Verification of the shodan-sec-monitor storage engine and collector

Shallow embedding of the repository's core (src/shodan_monitor/db.py and
src/shodan_monitor/collector.py) and proofs of the specified properties.

Conventions of the embedding:
* Timestamps are `Int` seconds; `now` is passed explicitly wherever the
  source calls SQL `now()` or reads the wall clock.
* SQL tables are Lean lists of rows; a statement's effect is a function from
  the table to the new table (plus its result / affected-row count).
* Nullable SQL columns and Python `Optional` arguments are `Option`.
* Python exceptions surface as `Except String` (for raising functions) or as
  explicit boolean failure parameters (for injected faults).
* SERIAL ids that the source uses only for logging are omitted from rows.
-/

namespace ShodanMonitor

/-- SQL `COALESCE(a, b)` on two nullable values: `a` when non-null, else `b`. -/
def coalesce {α : Type} (a b : Option α) : Option α :=
  match a with
  | some x => some x
  | none => b

/-- The last non-null value of a list of nullable values (none if all null):
the result of repeatedly merging with "prefer non-null incoming". -/
def lastSome {α : Type} (l : List (Option α)) : Option α :=
  l.foldl (fun acc v => coalesce v acc) none

/-! ## Scan runs (db.py: scan_runs table, ScanStatus, update_scan_run,
cleanup_stuck_scans) -/

/-- `VALID_STATUSES` from db.py: the values of the `ScanStatus` enum, also the
CHECK constraint on scan_runs.status. -/
def VALID_STATUSES : List String := ["running", "completed", "failed", "timeout"]

/-- The terminal statuses: the list `[COMPLETED, FAILED, TIMEOUT]` that
`update_scan_run` tests to auto-set finished_at. -/
def terminalStatuses : List String := ["completed", "failed", "timeout"]

/-- Whether a status string is terminal (membership test of the source). -/
def isTerminalStatus (s : String) : Bool := terminalStatuses.contains s

/-- A row of the scan_runs table (db.py `init_db`). -/
structure ScanRun where
  id : Nat
  started_at : Int
  finished_at : Option Int
  status : String
  targets_count : Option Int
  successful_targets : Int
  failed_targets : Int
  total_services : Int
deriving DecidableEq, Repr

/-- Python truthiness of the `status` argument: `if status:` in
`update_scan_run` skips both `None` and the empty string. -/
def truthyStatus : Option String → Option String
  | some s => if s = "" then none else some s
  | none => none

/-- The SET clause that `update_scan_run` builds dynamically, applied to one
row: status (stamping finished_at = now() for terminal values), then the three
optional counters, each only when provided. -/
def scanRunSet (st : Option String) (succ fail tot : Option Int) (now : Int)
    (r : ScanRun) : ScanRun :=
  let r1 :=
    match st with
    | some s =>
      let fin := if isTerminalStatus s then some now else r.finished_at
      { r with status := s, finished_at := fin }
    | none => r
  let r2 := match succ with
    | some v => { r1 with successful_targets := v }
    | none => r1
  let r3 := match fail with
    | some v => { r2 with failed_targets := v }
    | none => r2
  match tot with
  | some v => { r3 with total_services := v }
  | none => r3

/-- db.py `update_scan_run(scan_id, status?, successful_targets?,
failed_targets?, total_services?)`: validates a provided status against
`VALID_STATUSES` (raising `ValueError` otherwise), returns without executing
anything when no field is provided, and otherwise runs a single UPDATE of the
accumulated SET clause on the rows matching `id = scan_id`. -/
def update_scan_run (table : List ScanRun) (scan_id : Nat) (status : Option String)
    (successful_targets failed_targets total_services : Option Int) (now : Int) :
    Except String (List ScanRun) :=
  match truthyStatus status with
  | some s =>
    if s ∈ VALID_STATUSES then
      Except.ok (table.map (fun r =>
        if r.id = scan_id then
          scanRunSet (some s) successful_targets failed_targets total_services now r
        else r))
    else
      Except.error ("Invalid status: " ++ s)
  | none =>
    if successful_targets = none ∧ failed_targets = none ∧ total_services = none then
      Except.ok table
    else
      Except.ok (table.map (fun r =>
        if r.id = scan_id then
          scanRunSet none successful_targets failed_targets total_services now r
        else r))

/-- The WHERE predicate of `cleanup_stuck_scans`: status = 'running' AND
started_at < now() - interval 'timeout_minutes minutes'. -/
def isStuck (timeout_minutes now : Int) (r : ScanRun) : Bool :=
  r.status = "running" ∧ r.started_at < now - timeout_minutes * 60

/-- db.py `cleanup_stuck_scans(timeout_minutes)`: one UPDATE setting
status = 'timeout', finished_at = now() on every stuck running row, returning
the number of rows so updated (len of RETURNING id). -/
def cleanup_stuck_scans (table : List ScanRun) (timeout_minutes now : Int) :
    List ScanRun × Nat :=
  (table.map (fun r =>
      if isStuck timeout_minutes now r then
        { r with status := "timeout", finished_at := some now }
      else r),
   (table.filter (isStuck timeout_minutes now)).length)

/-! ## Targets (db.py: targets table, upsert_target) -/

/-- A row of the targets table (db.py `init_db`). -/
structure Target where
  id : Nat
  ip : String
  first_seen : Int
  last_seen : Int
  asn : Option String
  org : Option String
  country : Option String
  total_services : Int
  last_scan_run_id : Option Nat
deriving DecidableEq, Repr

/-- The DO UPDATE clause of `upsert_target`: metadata columns merged with
COALESCE(EXCLUDED.x, targets.x), last_seen = now(), last_scan_run_id taken
from the incoming row. -/
def targetMerge (scan_run_id : Nat) (asn org country : Option String) (now : Int)
    (t : Target) : Target :=
  { t with
    asn := coalesce asn t.asn,
    org := coalesce org t.org,
    country := coalesce country t.country,
    last_seen := now,
    last_scan_run_id := some scan_run_id }

/-- The row inserted by `upsert_target` when the ip is new: first_seen and
last_seen default to now(), total_services defaults to 0. -/
def targetNew (scan_run_id : Nat) (ip : String) (asn org country : Option String)
    (now : Int) (newId : Nat) : Target :=
  { id := newId, ip := ip, first_seen := now, last_seen := now,
    asn := asn, org := org, country := country, total_services := 0,
    last_scan_run_id := some scan_run_id }

/-- db.py `upsert_target(scan_run_id, ip, asn?, org?, country?)`:
INSERT ... ON CONFLICT (ip) DO UPDATE with the merge above, RETURNING id.
`newId` stands for the SERIAL id a fresh insert would receive. -/
def upsert_target (table : List Target) (scan_run_id : Nat) (ip : String)
    (asn org country : Option String) (now : Int) (newId : Nat) :
    List Target × Nat :=
  match table.find? (fun t => t.ip = ip) with
  | some t0 =>
    (table.map (fun t =>
        if t.ip = ip then targetMerge scan_run_id asn org country now t else t),
     t0.id)
  | none =>
    (table ++ [targetNew scan_run_id ip asn org country now newId], newId)

/-! ## Services (db.py: services table with its unique index on
(target_id, port, transport), insert_service, batch_insert_services) -/

/-- A row of the services table (db.py `init_db`); the SERIAL id, used only
for logging, is omitted. -/
structure Service where
  scan_run_id : Nat
  target_id : Int
  port : Int
  transport : String
  product : Option String
  version : Option String
  cpe : Option String
  vulns : List String
  risk_score : Int
  created_at : Int
  updated_at : Int
deriving DecidableEq, Repr

/-- The unique-index key test: whether a row occupies (target_id, port,
transport). -/
def svcKeyIs (target_id port : Int) (transport : String) (r : Service) : Bool :=
  r.target_id = target_id ∧ r.port = port ∧ r.transport = transport

/-- One call's payload for `insert_service` (the key columns factored out). -/
structure SvcCall where
  scan_run_id : Nat
  product : Option String
  version : Option String
  cpe : Option String
  vulns : List String
  risk_score : Int
  now : Int
deriving DecidableEq, Repr

/-- The DO UPDATE clause of `insert_service`: product/version/cpe merged with
COALESCE(EXCLUDED.x, services.x); vulns, risk_score and scan_run_id always
overwritten; updated_at = now(). -/
def mergeCall (r : Service) (c : SvcCall) : Service :=
  { r with
    product := coalesce c.product r.product,
    version := coalesce c.version r.version,
    cpe := coalesce c.cpe r.cpe,
    vulns := c.vulns,
    risk_score := c.risk_score,
    scan_run_id := c.scan_run_id,
    updated_at := c.now }

/-- The row inserted by `insert_service` when the key is free (created_at and
updated_at default to now()). -/
def svcRow (target_id port : Int) (transport : String) (c : SvcCall) : Service :=
  { scan_run_id := c.scan_run_id, target_id := target_id, port := port,
    transport := transport, product := c.product, version := c.version,
    cpe := c.cpe, vulns := c.vulns, risk_score := c.risk_score,
    created_at := c.now, updated_at := c.now }

/-- db.py `insert_service(...)`: raises `ValueError` when risk_score is
outside 0..100, otherwise INSERT ... ON CONFLICT (target_id, port, transport)
DO UPDATE with the merge above. -/
def insert_service (table : List Service) (target_id port : Int)
    (transport : String) (c : SvcCall) : Except String (List Service) :=
  if ¬(0 ≤ c.risk_score ∧ c.risk_score ≤ 100) then
    Except.error "Risk score must be between 0-100"
  else if table.any (svcKeyIs target_id port transport) then
    Except.ok (table.map (fun r =>
      if svcKeyIs target_id port transport r then mergeCall r c else r))
  else
    Except.ok (table ++ [svcRow target_id port transport c])

/-- A sequence of `insert_service` calls sharing the same key, executed left
to right; the first raising call aborts the sequence (as a raised ValueError
would). -/
def insertSeq (table : List Service) (target_id port : Int) (transport : String) :
    List SvcCall → Except String (List Service)
  | [] => Except.ok table
  | c :: cs =>
    match insert_service table target_id port transport c with
    | Except.ok t => insertSeq t target_id port transport cs
    | Except.error e => Except.error e

/-- One element of `services_data` for `batch_insert_services`, after the
source has applied its `.get` defaults. -/
structure SvcData where
  scan_run_id : Nat
  target_id : Int
  port : Int
  transport : String
  product : Option String
  version : Option String
  cpe : Option String
  vulns : List String
  risk_score : Int
deriving DecidableEq, Repr

/-- The key of a batch element. -/
def dataKeyIs (d : SvcData) (r : Service) : Bool :=
  svcKeyIs d.target_id d.port d.transport r

/-- The row a batch element inserts (timestamps default to now()). -/
def dataRow (d : SvcData) (now : Int) : Service :=
  { scan_run_id := d.scan_run_id, target_id := d.target_id, port := d.port,
    transport := d.transport, product := d.product, version := d.version,
    cpe := d.cpe, vulns := d.vulns, risk_score := d.risk_score,
    created_at := now, updated_at := now }

/-- One INSERT ... ON CONFLICT DO NOTHING of the executemany loop: a row whose
key is already occupied is skipped (affected count 0), otherwise appended
(affected count 1). psycopg2's executemany accumulates the affected counts of
the individual statements into the cursor's rowcount. -/
def batchStep (now : Int) (acc : List Service × Nat) (d : SvcData) :
    List Service × Nat :=
  if acc.1.any (dataKeyIs d) then acc
  else (acc.1 ++ [dataRow d now], acc.2 + 1)

/-- db.py `batch_insert_services(services_data)`: returns 0 on an empty list
without touching the table, otherwise executemany of ON CONFLICT DO NOTHING
inserts, returning the cursor's rowcount. -/
def batch_insert_services (table : List Service) (data : List SvcData)
    (now : Int) : List Service × Nat :=
  if data.isEmpty then (table, 0)
  else data.foldl (batchStep now) (table, 0)

/-! ## Connection scope (db.py: get_cursor) -/

/-- The observable events of one execution of the `get_cursor` context
manager, in order. -/
inductive CursorEvent
  | commit
  | rollback
  | closeCursor
  | release
deriving DecidableEq, Repr

/-- db.py `get_cursor(autocommit)`: acquire a pooled connection, yield a
cursor to the body, commit when `autocommit` and the body returned; on any
exception from the body or the commit, roll back and re-raise; in all cases
finally close the cursor and return the connection to the pool.
Parameters `bodyRaises` / `commitRaises` inject an exception at the
corresponding point; the result is the ordered event trace together with
whether an exception propagated to the caller. -/
def get_cursor (autocommit bodyRaises commitRaises : Bool) :
    List CursorEvent × Bool :=
  if bodyRaises then
    ([CursorEvent.rollback, CursorEvent.closeCursor, CursorEvent.release], true)
  else if autocommit then
    if commitRaises then
      ([CursorEvent.commit, CursorEvent.rollback, CursorEvent.closeCursor,
        CursorEvent.release], true)
    else
      ([CursorEvent.commit, CursorEvent.closeCursor, CursorEvent.release], false)
  else
    ([CursorEvent.closeCursor, CursorEvent.release], false)

/-- `e` occurs before the first `f` in `l` (both present). -/
def occursBefore (l : List CursorEvent) (e f : CursorEvent) : Bool :=
  match l with
  | [] => false
  | x :: xs => if x = e then xs.contains f else if x = f then false else occursBefore xs e f

/-! ## Raw record store and checkpoints

collector.py imports `save_raw_banner`, `get_last_checkpoint`,
`update_intel_stats` and `log_intel_history` from `shodan_monitor.db`, but the
db.py present in the repository is a different schema generation and does not
define them; they are modelled here from the spec. -/

/-- A raw intelligence record as the collector sees it: address, port,
observation time, the nested location mapping reduced to its country_code
(outer `none` = no location, inner `none` = no country_code), and the
remaining auxiliary fields. -/
structure Banner where
  ip : String
  port : Int
  obsTime : String
  location : Option (Option String)
  aux : List (String × String)
deriving DecidableEq, Repr

/-- Modelled from the spec: the identity of a raw record is a deterministic
digest of `address:port:observation-time` (spec §3 RawRecord); the digest
function is not under src/, so the key string itself stands for the digest. -/
def bannerKey (b : Banner) : String :=
  b.ip ++ ":" ++ toString b.port ++ ":" ++ b.obsTime

/-- A stored raw-record document: the record decorated with collection
metadata (profile name, processed flag), keyed by its digest. -/
structure RawDoc where
  key : String
  banner : Banner
  profile : String
  processed : Bool
deriving DecidableEq, Repr

/-- Replace the first document with the given key, appending when no document
has it (a replace-one-with-upsert write). -/
def replaceOne (store : List RawDoc) (k : String) (d : RawDoc) : List RawDoc :=
  match store with
  | [] => [d]
  | x :: xs => if x.key = k then d :: xs else x :: replaceOne xs k d

/-- Modelled from the spec: `save_raw_banner(banner, profile)` (imported by
collector.py from shodan_monitor.db but absent from src/) upserts the record
into the raw store under its content digest — re-submitting the same logical
observation replaces rather than duplicates it (spec §3 RawRecord, §8). -/
def save_raw_banner (store : List RawDoc) (b : Banner) (profile : String) :
    List RawDoc :=
  replaceOne store (bannerKey b)
    { key := bannerKey b, banner := b, profile := profile, processed := false }

/-- The per-profile aggregate record: statistics and the checkpoint share one
durable record (spec §4.3). -/
structure IntelStat where
  profile : String
  total : Int
  countries : List (String × Int)
  checkpoint : Int
deriving DecidableEq, Repr

/-- An append-only per-profile history data point (spec §4.4 End-of-pass). -/
structure HistoryEntry where
  profile : String
  count : Int
  observed_at : Int
deriving DecidableEq, Repr

/-- The collector's durable state: the raw-record store, the per-profile
aggregates, and the append-only history. -/
structure IntelDB where
  raw : List RawDoc
  stats : List IntelStat
  history : List HistoryEntry
deriving DecidableEq, Repr

/-- Modelled from the spec: `get_last_checkpoint(profile_name)` (absent from
src/) reads the per-profile checkpoint from the profile's aggregate record,
absent when the profile has none yet (spec §4.3). -/
def get_last_checkpoint (db : IntelDB) (name : String) : Option Int :=
  (db.stats.find? (fun s => s.profile = name)).map (fun s => s.checkpoint)

/-- Replace the first aggregate record of the profile, appending when the
profile has none (keyed by profile name, spec §6). -/
def upsertStat (stats : List IntelStat) (name : String) (st : IntelStat) :
    List IntelStat :=
  match stats with
  | [] => [st]
  | x :: xs => if x.profile = name then st :: xs else x :: upsertStat xs name st

/-- Modelled from the spec: `update_intel_stats(name, total, countries)`
(absent from src/) writes the profile's aggregate — total count, country
histogram, and the new checkpoint timestamp — as one record (spec §4.3,
§4.4 End-of-pass). -/
def update_intel_stats (db : IntelDB) (name : String) (total : Int)
    (countries : List (String × Int)) (now : Int) : IntelDB :=
  let st : IntelStat :=
    { profile := name, total := total, countries := countries, checkpoint := now }
  { db with stats := upsertStat db.stats name st }

/-- Modelled from the spec: `log_intel_history(name, count)` (absent from
src/) appends one historical data point, never updating prior ones
(spec §4.4 End-of-pass). -/
def log_intel_history (db : IntelDB) (name : String) (count : Int) (now : Int) :
    IntelDB :=
  let e : HistoryEntry := { profile := name, count := count, observed_at := now }
  { db with history := db.history ++ [e] }

/-! ## The collector's profile pass (collector.py: `_process_profile`) -/

/-- `country_code = location.get('country_code', 'Unknown') if location else
'Unknown'` from the streaming loop. -/
def countryOf (b : Banner) : String :=
  match b.location with
  | some (some c) => c
  | some none => "Unknown"
  | none => "Unknown"

/-- `country_distribution[cc] = country_distribution.get(cc, 0) + 1`: bump a
key of the tally. -/
def bumpCountry (dist : List (String × Int)) (c : String) : List (String × Int) :=
  match dist with
  | [] => [(c, 1)]
  | (k, n) :: rest => if k = c then (k, n + 1) :: rest else (k, n) :: bumpCountry rest c

/-- How the streaming `for` loop of `_process_profile` ended. -/
inductive LoopExit
  | finished
  | broke
  | saveRaised
deriving DecidableEq, Repr

/-- The streaming loop of `_process_profile`: for each yielded banner, check
the shutdown flag (break), call `save_raw_banner` — whose exception, having no
per-record handler, propagates out of the loop (`saveFails` injects such a
failure) — then bump the tally. `i` is the index of the next yielded banner,
against which the shutdown flag `shouldExit` is sampled. -/
def streamLoop (db : IntelDB) (name : String) (saveFails : Banner → Bool)
    (shouldExit : Nat → Bool) :
    List Banner → Nat → Int → List (String × Int) →
    IntelDB × Int × List (String × Int) × LoopExit
  | [], _, total, dist => (db, total, dist, LoopExit.finished)
  | b :: rest, i, total, dist =>
    if shouldExit i then (db, total, dist, LoopExit.broke)
    else if saveFails b then (db, total, dist, LoopExit.saveRaised)
    else
      streamLoop { db with raw := save_raw_banner db.raw b name } name saveFails
        shouldExit rest (i + 1) (total + 1) (bumpCountry dist (countryOf b))

/-- collector.py `_process_profile`: run the streaming loop inside `try`; when
the loop ends without an exception (exhausted or broken by shutdown), write
the aggregate via `update_intel_stats` and append history via
`log_intel_history`; any exception — a record's save failure, or the stream
itself raising after its yielded banners (`streamRaises`) — is caught by the
profile-level handler, which increments `stats.errors` and returns.
Returns the resulting durable state and the pass's error count. -/
def process_profile (db : IntelDB) (name : String) (banners : List Banner)
    (streamRaises : Bool) (saveFails : Banner → Bool) (shouldExit : Nat → Bool)
    (now : Int) : IntelDB × Int :=
  match streamLoop db name saveFails shouldExit banners 0 0 [] with
  | (db1, total, dist, LoopExit.saveRaised) =>
    let _ := total
    let _ := dist
    (db1, 1)
  | (db1, total, dist, LoopExit.broke) =>
    (log_intel_history (update_intel_stats db1 name total dist now) name total now, 0)
  | (db1, total, dist, LoopExit.finished) =>
    if streamRaises then (db1, 1)
    else (log_intel_history (update_intel_stats db1 name total dist now) name total now, 0)

/-- Saving a list of banners in order (the raw-store effect of a prefix of the
streaming loop). -/
def saveAll (db : IntelDB) (bs : List Banner) (name : String) : IntelDB :=
  bs.foldl (fun d b => { d with raw := save_raw_banner d.raw b name }) db

/-! ## Concrete rows used by witnesses and counterexamples -/

/-- A scan run already finalized as completed (finished_at = 50). -/
def doneRun : ScanRun :=
  { id := 1, started_at := 0, finished_at := some 50, status := "completed",
    targets_count := some 3, successful_targets := 2, failed_targets := 1,
    total_services := 7 }

/-- A run left running since t = 0 (60 minutes before now = 3600). -/
def staleRun : ScanRun :=
  { id := 2, started_at := 0, finished_at := none, status := "running",
    targets_count := some 5, successful_targets := 0, failed_targets := 0,
    total_services := 0 }

/-- A run still running, started 5 minutes before now = 3600. -/
def freshRun : ScanRun :=
  { id := 3, started_at := 3300, finished_at := none, status := "running",
    targets_count := some 5, successful_targets := 0, failed_targets := 0,
    total_services := 0 }

/-- A target whose org metadata is populated. -/
def orgTarget : Target :=
  { id := 7, ip := "10.0.0.5", first_seen := 100, last_seen := 100,
    asn := none, org := some "ExampleOrg", country := none,
    total_services := 0, last_scan_run_id := some 1 }

/-- An empty collector state. -/
def emptyIntelDB : IntelDB := { raw := [], stats := [], history := [] }

/-- A banner whose persistence will be made to fail in counterexamples. -/
def bannerA : Banner :=
  { ip := "10.0.0.1", port := 22, obsTime := "t1",
    location := some (some "US"), aux := [("product", "sshd")] }

/-- A second, unrelated banner. -/
def bannerB : Banner :=
  { ip := "10.0.0.2", port := 80, obsTime := "t2", location := none, aux := [] }

/-- A third banner, saved successfully before a failure. -/
def bannerC : Banner :=
  { ip := "10.0.0.3", port := 443, obsTime := "t3", location := some none,
    aux := [] }

/-- A profile aggregate for profile "p" with checkpoint 10. -/
def statP : IntelStat :=
  { profile := "p", total := 0, countries := [], checkpoint := 10 }

/-- A collector state holding one profile aggregate with checkpoint 10. -/
def cpIntelDB : IntelDB := { raw := [], stats := [statP], history := [] }

/-! # Theorems -/

/-! ## Helper lemmas on `scanRunSet` -/

theorem scanRunSet_id (st : Option String) (succ fail tot : Option Int)
    (now : Int) (r : ScanRun) : (scanRunSet st succ fail tot now r).id = r.id := by
  cases st <;> cases succ <;> cases fail <;> cases tot <;> simp [scanRunSet]

theorem scanRunSet_started_at (st : Option String) (succ fail tot : Option Int)
    (now : Int) (r : ScanRun) :
    (scanRunSet st succ fail tot now r).started_at = r.started_at := by
  cases st <;> cases succ <;> cases fail <;> cases tot <;> simp [scanRunSet]

theorem scanRunSet_targets_count (st : Option String) (succ fail tot : Option Int)
    (now : Int) (r : ScanRun) :
    (scanRunSet st succ fail tot now r).targets_count = r.targets_count := by
  cases st <;> cases succ <;> cases fail <;> cases tot <;> simp [scanRunSet]

theorem scanRunSet_status_some (s : String) (succ fail tot : Option Int)
    (now : Int) (r : ScanRun) :
    (scanRunSet (some s) succ fail tot now r).status = s := by
  cases succ <;> cases fail <;> cases tot <;> simp [scanRunSet]

theorem scanRunSet_status_none (succ fail tot : Option Int) (now : Int)
    (r : ScanRun) : (scanRunSet none succ fail tot now r).status = r.status := by
  cases succ <;> cases fail <;> cases tot <;> simp [scanRunSet]

theorem scanRunSet_finished_terminal (s : String) (succ fail tot : Option Int)
    (now : Int) (r : ScanRun) (h : isTerminalStatus s = true) :
    (scanRunSet (some s) succ fail tot now r).finished_at = some now := by
  cases succ <;> cases fail <;> cases tot <;> simp [scanRunSet, h]

theorem scanRunSet_finished_nonterminal (s : String) (succ fail tot : Option Int)
    (now : Int) (r : ScanRun) (h : isTerminalStatus s = false) :
    (scanRunSet (some s) succ fail tot now r).finished_at = r.finished_at := by
  cases succ <;> cases fail <;> cases tot <;> simp [scanRunSet, h]

theorem scanRunSet_finished_none (succ fail tot : Option Int) (now : Int)
    (r : ScanRun) : (scanRunSet none succ fail tot now r).finished_at = r.finished_at := by
  cases succ <;> cases fail <;> cases tot <;> simp [scanRunSet]

theorem scanRunSet_succ_none (st : Option String) (fail tot : Option Int)
    (now : Int) (r : ScanRun) :
    (scanRunSet st none fail tot now r).successful_targets = r.successful_targets := by
  cases st <;> cases fail <;> cases tot <;> simp [scanRunSet]

theorem scanRunSet_fail_none (st : Option String) (succ tot : Option Int)
    (now : Int) (r : ScanRun) :
    (scanRunSet st succ none tot now r).failed_targets = r.failed_targets := by
  cases st <;> cases succ <;> cases tot <;> simp [scanRunSet]

theorem scanRunSet_tot_none (st : Option String) (succ fail : Option Int)
    (now : Int) (r : ScanRun) :
    (scanRunSet st succ fail none now r).total_services = r.total_services := by
  cases st <;> cases succ <;> cases fail <;> simp [scanRunSet]

/-! ## C6: get_cursor releases on every exit path, rolling back first on
exceptions -/

/-- C6: every execution of the `get_cursor` scope — on every exit path,
including an exception raised by the yielded body or by the commit — returns
the acquired connection to the pool, and on an exception the active
transaction is rolled back before the connection is released. -/
theorem get_cursor_always_releases :
    ∀ autocommit bodyRaises commitRaises : Bool,
      (get_cursor autocommit bodyRaises commitRaises).1.contains
          CursorEvent.release = true ∧
        ((get_cursor autocommit bodyRaises commitRaises).2 = true →
          occursBefore (get_cursor autocommit bodyRaises commitRaises).1
            CursorEvent.rollback CursorEvent.release = true) := by
  decide

/-- Witness for C6 at a concrete faulty execution: a raising body under
autocommit rolls back before releasing. -/
theorem get_cursor_always_releases_witness :
    occursBefore (get_cursor true true false).1 CursorEvent.rollback
      CursorEvent.release = true :=
  (get_cursor_always_releases true true false).2 (by decide)

/-! ## C9: cleanup_stuck_scans reclaims exactly the stale running runs -/

/-- C9: `cleanup_stuck_scans(timeout_minutes)` sets status = 'timeout' and
finished_at = now on exactly those runs with status = 'running' whose
started_at precedes now minus the timeout, leaves every other run untouched,
and returns the number of runs so reclaimed. -/
theorem cleanup_stuck_scans_spec (table : List ScanRun) (timeout_minutes now : Int) :
    (cleanup_stuck_scans table timeout_minutes now).1.length = table.length ∧
    (∀ (i : Nat) (h1 : i < table.length)
        (h2 : i < (cleanup_stuck_scans table timeout_minutes now).1.length),
      (isStuck timeout_minutes now table[i] = true →
        (cleanup_stuck_scans table timeout_minutes now).1[i] =
          { table[i] with status := "timeout", finished_at := some now }) ∧
      (isStuck timeout_minutes now table[i] = false →
        (cleanup_stuck_scans table timeout_minutes now).1[i] = table[i])) ∧
    (cleanup_stuck_scans table timeout_minutes now).2 =
      (table.filter (isStuck timeout_minutes now)).length := by
  refine ⟨by simp [cleanup_stuck_scans], ?_, rfl⟩
  intro i h1 h2
  constructor
  · intro h
    simp [cleanup_stuck_scans, h]
  · intro h
    simp [cleanup_stuck_scans, h]

/-- Witness for C9, the spec's own scenario: under a 30-minute timeout at
now = 3600, a running run started at 0 (60 minutes ago) is reclaimed with
finished_at set, a running run started at 3300 (5 minutes ago) is untouched,
and the returned count is 1. -/
theorem cleanup_stuck_scans_spec_witness :
    (cleanup_stuck_scans [staleRun, freshRun] 30 3600).1.get ⟨0, by decide⟩ =
        { staleRun with status := "timeout", finished_at := some (3600 : Int) } ∧
      (cleanup_stuck_scans [staleRun, freshRun] 30 3600).1.get ⟨1, by decide⟩ = freshRun ∧
      (cleanup_stuck_scans [staleRun, freshRun] 30 3600).2 = 1 := by
  have h := cleanup_stuck_scans_spec [staleRun, freshRun] 30 3600
  refine ⟨(h.2.1 0 (by decide) (by decide)).1 (by decide),
          (h.2.1 1 (by decide) (by decide)).2 (by decide), ?_⟩
  rw [h.2.2]
  decide

/-! ## C1: update_scan_run performs no transition validation -/

/-- C1 counterexample: a run already in the terminal status 'completed' is set
back to the non-terminal status 'running' by `update_scan_run` — the call is
applied (leaving the stale finished_at in place), not rejected. -/
theorem update_scan_run_accepts_running_after_completed :
    update_scan_run [doneRun] 1 (some "running") none none none 60 =
      Except.ok [{ doneRun with status := "running" }] := by
  rfl

/-- C1 amended: `update_scan_run` applies any valid provided status
unconditionally — in particular a non-terminal status after a terminal one is
applied, not rejected — and every call that provides a terminal status stamps
finished_at = now (non-null) on the matched rows. -/
theorem update_scan_run_status_unconditional (table : List ScanRun)
    (scan_id : Nat) (s : String) (succ fail tot : Option Int) (now : Int)
    (hs : s ∈ VALID_STATUSES) (hne : s ≠ "") :
    ∃ f, update_scan_run table scan_id (some s) succ fail tot now =
        Except.ok (table.map f) ∧
      (∀ r : ScanRun, r.id = scan_id →
        (f r).status = s ∧
          (isTerminalStatus s = true → (f r).finished_at = some now)) ∧
      (∀ r : ScanRun, r.id ≠ scan_id → f r = r) := by
  refine ⟨fun r =>
    if r.id = scan_id then scanRunSet (some s) succ fail tot now r else r,
    ?_, ?_, ?_⟩
  · simp [update_scan_run, truthyStatus, hne, hs]
  · intro r hr
    refine ⟨?_, fun ht => ?_⟩
    · simp [hr, scanRunSet_status_some]
    · simp [hr, scanRunSet_finished_terminal _ _ _ _ _ _ ht]
  · intro r hr
    simp [hr]

/-- Witness for C1's amended theorem: setting 'completed' on a run stamps
finished_at = 99. -/
theorem update_scan_run_status_unconditional_witness :
    ∃ f, update_scan_run [doneRun] 1 (some "completed") none none none 99 =
        Except.ok ([doneRun].map f) ∧
      (∀ r : ScanRun, r.id = 1 →
        (f r).status = "completed" ∧
          (isTerminalStatus "completed" = true → (f r).finished_at = some 99)) ∧
      (∀ r : ScanRun, r.id ≠ 1 → f r = r) :=
  update_scan_run_status_unconditional [doneRun] 1 "completed" none none none 99
    (by decide) (by decide)

/-! ## C10: update_scan_run touches only the provided fields -/

/-- C10: a call with status, successful_targets, failed_targets and
total_services all absent is a no-op returning normally; and in general every
successful call leaves id, started_at and targets_count unchanged, leaves
unmatched rows fully unchanged, leaves each optional field unchanged when its
argument is absent, and leaves finished_at unchanged unless a terminal status
is provided. -/
theorem update_scan_run_frame (table : List ScanRun) (scan_id : Nat) (now : Int) :
    update_scan_run table scan_id none none none none now = Except.ok table ∧
    (∀ (status : Option String) (succ fail tot : Option Int)
        (table' : List ScanRun),
      update_scan_run table scan_id status succ fail tot now = Except.ok table' →
      ∃ f, table' = table.map f ∧
        ∀ r : ScanRun,
          (f r).id = r.id ∧
          (f r).started_at = r.started_at ∧
          (f r).targets_count = r.targets_count ∧
          (r.id ≠ scan_id → f r = r) ∧
          (truthyStatus status = none → (f r).status = r.status) ∧
          (succ = none → (f r).successful_targets = r.successful_targets) ∧
          (fail = none → (f r).failed_targets = r.failed_targets) ∧
          (tot = none → (f r).total_services = r.total_services) ∧
          ((∀ s, truthyStatus status = some s → isTerminalStatus s = false) →
            (f r).finished_at = r.finished_at)) := by
  constructor
  · simp [update_scan_run, truthyStatus]
  · intro status succ fail tot table' hok
    have hframe : ∀ st : Option String,
        ∀ r : ScanRun,
          let g := fun r : ScanRun =>
            if r.id = scan_id then scanRunSet st succ fail tot now r else r
          (g r).id = r.id ∧
          (g r).started_at = r.started_at ∧
          (g r).targets_count = r.targets_count ∧
          (r.id ≠ scan_id → g r = r) ∧
          (st = none → (g r).status = r.status) ∧
          (succ = none → (g r).successful_targets = r.successful_targets) ∧
          (fail = none → (g r).failed_targets = r.failed_targets) ∧
          (tot = none → (g r).total_services = r.total_services) ∧
          ((∀ s, st = some s → isTerminalStatus s = false) →
            (g r).finished_at = r.finished_at) := by
      intro st r
      by_cases hid : r.id = scan_id
      · refine ⟨by simp [hid, scanRunSet_id], by simp [hid, scanRunSet_started_at],
          by simp [hid, scanRunSet_targets_count],
          fun hne => absurd hid hne, fun hst => ?_, fun hsucc => ?_,
          fun hfail => ?_, fun htot => ?_, fun hterm => ?_⟩
        · subst hst; simp [hid, scanRunSet_status_none]
        · subst hsucc; simp [hid, scanRunSet_succ_none]
        · subst hfail; simp [hid, scanRunSet_fail_none]
        · subst htot; simp [hid, scanRunSet_tot_none]
        · cases st with
          | none => simp [hid, scanRunSet_finished_none]
          | some s =>
            simp [hid, scanRunSet_finished_nonterminal _ _ _ _ _ _ (hterm s rfl)]
      · simp [hid]
    rcases hst : truthyStatus status with _ | s
    · by_cases hall : succ = none ∧ fail = none ∧ tot = none
      · refine ⟨id, ?_, ?_⟩
        · have : table' = table := by
            rw [update_scan_run, hst] at hok
            simp [hall.1, hall.2.1, hall.2.2] at hok
            exact hok.symm
          simp [this]
        · intro r
          have h := hframe none r
          simp only [hst]
          rcases hall with ⟨h1, h2, h3⟩
          subst h1; subst h2; subst h3
          exact ⟨rfl, rfl, rfl, fun _ => rfl, fun _ => rfl, fun _ => rfl,
            fun _ => rfl, fun _ => rfl, fun _ => rfl⟩
      · refine ⟨fun r =>
          if r.id = scan_id then scanRunSet none succ fail tot now r else r, ?_, ?_⟩
        · have heq : update_scan_run table scan_id status succ fail tot now =
              Except.ok (table.map (fun r =>
                if r.id = scan_id then scanRunSet none succ fail tot now r else r)) := by
            rw [update_scan_run, hst]
            simp [hall]
          rw [heq] at hok
          cases hok
          rfl
        · intro r
          have h := hframe none r
          simpa [hst] using h
    · by_cases hvalid : s ∈ VALID_STATUSES
      · have heq : update_scan_run table scan_id status succ fail tot now =
            Except.ok (table.map (fun r =>
              if r.id = scan_id then scanRunSet (some s) succ fail tot now r else r)) := by
          rw [update_scan_run, hst]
          simp [hvalid]
        rw [heq] at hok
        refine ⟨fun r =>
          if r.id = scan_id then scanRunSet (some s) succ fail tot now r else r,
          by cases hok; rfl, ?_⟩
        intro r
        have h := hframe (some s) r
        simpa [hst] using h
      · have heq : update_scan_run table scan_id status succ fail tot now =
            Except.error ("Invalid status: " ++ s) := by
          rw [update_scan_run, hst]
          simp [hvalid]
        rw [heq] at hok
        cases hok

/-- Witness for C10: the all-absent call on a concrete table is a no-op. -/
theorem update_scan_run_frame_witness :
    update_scan_run [doneRun, freshRun] 1 none none none none 77 =
      Except.ok [doneRun, freshRun] :=
  (update_scan_run_frame [doneRun, freshRun] 1 77).1

/-! ## Generic list helpers for keyed updates -/

/-- Filtering after a keyed in-place update: when the update preserves the
key predicate, the matching rows of the updated table are the updated matching
rows of the original. -/
theorem filter_map_update {α : Type} (p : α → Prop) [DecidablePred p] (f : α → α)
    (hpres : ∀ a, p (f a) ↔ p a) (l : List α) :
    (l.map (fun a => if p a then f a else a)).filter (fun a => p a) =
      (l.filter (fun a => p a)).map f := by
  induction l with
  | nil => rfl
  | cons x xs ih =>
    by_cases hx : p x
    · simp [hx, (hpres x).mpr hx, ih]
    · simp [hx, ih]

/-- A predicate whose filter is a singleton finds that element. -/
theorem find?_of_filter_singleton {α : Type} (p : α → Bool) (l : List α) (a : α)
    (h : l.filter p = [a]) : l.find? p = some a := by
  induction l with
  | nil => simp at h
  | cons x xs ih =>
    cases hx : p x with
    | true =>
      rw [List.filter_cons_of_pos hx] at h
      rw [List.find?_cons_of_pos _ hx]
      exact congrArg some (List.cons.injEq _ _ _ _ ▸ h).1
    | false =>
      rw [List.filter_cons_of_neg (by simp [hx])] at h
      rw [List.find?_cons_of_neg _ (by simp [hx])]
      exact ih h

/-- A predicate whose filter is empty finds nothing. -/
theorem find?_of_filter_nil {α : Type} (p : α → Bool) (l : List α)
    (h : l.filter p = []) : l.find? p = none := by
  induction l with
  | nil => rfl
  | cons x xs ih =>
    cases hx : p x with
    | true => rw [List.filter_cons_of_pos hx] at h; exact absurd h (by simp)
    | false =>
      rw [List.filter_cons_of_neg (by simp [hx])] at h
      rw [List.find?_cons_of_neg _ (by simp [hx])]
      exact ih h

/-! ## C8: upsert_target merges keep-prior-when-absent and always bumps
last_seen -/

/-- C8: `upsert_target` merges by unique ip with "keep prior value when the
incoming one is absent": with the ip already present (as the single matching
row t0), a None argument leaves the stored asn/org/country unchanged and a
populated field never regresses to null, while last_seen is set to now; with
the ip absent, the inserted row also carries last_seen = now. -/
theorem upsert_target_spec (table : List Target) (scan_run_id : Nat) (ip : String)
    (asn org country : Option String) (now : Int) (newId : Nat) :
    (∀ t0, table.filter (fun t => t.ip = ip) = [t0] →
      (upsert_target table scan_run_id ip asn org country now newId).1.filter
          (fun t => t.ip = ip) =
        [targetMerge scan_run_id asn org country now t0] ∧
      (targetMerge scan_run_id asn org country now t0).last_seen = now ∧
      (asn = none →
        (targetMerge scan_run_id asn org country now t0).asn = t0.asn) ∧
      (org = none →
        (targetMerge scan_run_id asn org country now t0).org = t0.org) ∧
      (country = none →
        (targetMerge scan_run_id asn org country now t0).country = t0.country) ∧
      (t0.asn.isSome = true →
        (targetMerge scan_run_id asn org country now t0).asn.isSome = true) ∧
      (t0.org.isSome = true →
        (targetMerge scan_run_id asn org country now t0).org.isSome = true) ∧
      (t0.country.isSome = true →
        (targetMerge scan_run_id asn org country now t0).country.isSome = true)) ∧
    (table.filter (fun t => t.ip = ip) = [] →
      (upsert_target table scan_run_id ip asn org country now newId).1.filter
          (fun t => t.ip = ip) =
        [targetNew scan_run_id ip asn org country now newId] ∧
      (targetNew scan_run_id ip asn org country now newId).last_seen = now) := by
  constructor
  · intro t0 h0
    have hfind := find?_of_filter_singleton _ table t0 h0
    have hupd : (upsert_target table scan_run_id ip asn org country now newId).1 =
        table.map (fun t =>
          if t.ip = ip then targetMerge scan_run_id asn org country now t
          else t) := by
      rw [upsert_target, hfind]
    refine ⟨?_, rfl, ?_, ?_, ?_, ?_, ?_, ?_⟩
    · rw [hupd,
        filter_map_update (fun t : Target => t.ip = ip) _
          (fun t => by simp [targetMerge]), h0]
      rfl
    · intro h; simp [targetMerge, h, coalesce]
    · intro h; simp [targetMerge, h, coalesce]
    · intro h; simp [targetMerge, h, coalesce]
    · intro h; cases hasn : asn <;> simp [targetMerge, coalesce, hasn, h]
    · intro h; cases horg : org <;> simp [targetMerge, coalesce, horg, h]
    · intro h; cases hc : country <;> simp [targetMerge, coalesce, hc, h]
  · intro h0
    have hfind := find?_of_filter_nil (fun t : Target => decide (t.ip = ip)) table h0
    have hupd : (upsert_target table scan_run_id ip asn org country now newId).1 =
        table ++ [targetNew scan_run_id ip asn org country now newId] := by
      rw [upsert_target, hfind]
    refine ⟨?_, rfl⟩
    rw [hupd, List.filter_append, h0]
    simp [targetNew]

/-- Witness for C8: after a row for ip 10.0.0.5 with org populated, an upsert
with org = None keeps org = "ExampleOrg" and bumps last_seen to 200. -/
theorem upsert_target_spec_witness :
    (upsert_target [orgTarget] 2 "10.0.0.5" none none none 200 9).1.filter
        (fun t => t.ip = "10.0.0.5") =
      [targetMerge 2 none none none 200 orgTarget] ∧
    (targetMerge 2 none none none 200 orgTarget).org = some "ExampleOrg" ∧
    (targetMerge 2 none none none 200 orgTarget).last_seen = 200 := by
  have h := (upsert_target_spec [orgTarget] 2 "10.0.0.5" none none none 200 9).1
    orgTarget (by decide)
  exact ⟨h.1, (h.2.2.2.1 rfl).trans rfl, h.2.1⟩

/-! ## C5: batch_insert_services skips conflicts and returns the inserted
count -/

/-- A row built from a batch element matches another element's key exactly
when the two elements share the (target_id, port, transport) key. -/
theorem dataKeyIs_dataRow (d e : SvcData) (now : Int) :
    dataKeyIs e (dataRow d now) = true ↔
      (e.target_id = d.target_id ∧ e.port = d.port ∧ e.transport = d.transport) := by
  simp only [dataKeyIs, dataRow, svcKeyIs, decide_eq_true_eq]
  exact ⟨fun h => ⟨h.1.symm, h.2.1.symm, h.2.2.symm⟩,
    fun h => ⟨h.1.symm, h.2.1.symm, h.2.2.symm⟩⟩

/-- Elements with equal keys have pointwise equal key predicates. -/
theorem dataKeyIs_congr (d e : SvcData)
    (h : e.target_id = d.target_id ∧ e.port = d.port ∧ e.transport = d.transport)
    (r : Service) : dataKeyIs e r = dataKeyIs d r := by
  simp [dataKeyIs, svcKeyIs, h.1, h.2.1, h.2.2]

/-- The executemany fold of `batch_insert_services`: it only appends rows (the
existing table is a prefix, unmodified), the accumulated rowcount grows by
exactly the number of appended rows, and the matching rows of any key already
occupied in the starting table are left exactly as they were. -/
theorem batch_foldl_spec (now : Int) (data : List SvcData) :
    ∀ (t : List Service) (n : Nat),
      ∃ extra, data.foldl (batchStep now) (t, n) = (t ++ extra, n + extra.length) ∧
        ∀ e : SvcData, t.any (dataKeyIs e) = true →
          (t ++ extra).filter (dataKeyIs e) = t.filter (dataKeyIs e) := by
  induction data with
  | nil => intro t n; exact ⟨[], by simp, fun e _ => by simp⟩
  | cons d ds ih =>
    intro t n
    by_cases hc : t.any (dataKeyIs d) = true
    · have hstep : batchStep now (t, n) d = (t, n) := by
        simp [batchStep, hc]
      rw [List.foldl_cons, hstep]
      exact ih t n
    · have hstep : batchStep now (t, n) d = (t ++ [dataRow d now], n + 1) := by
        simp [batchStep] at hc ⊢
        intro x hx
        exact hc x hx
      rw [List.foldl_cons, hstep]
      obtain ⟨extra, heq, hkeys⟩ := ih (t ++ [dataRow d now]) (n + 1)
      refine ⟨[dataRow d now] ++ extra, ?_, ?_⟩
      · rw [heq, List.append_assoc]
        congr 1
        simp [List.length_append]
        omega
      · intro e he
        have hne : dataKeyIs e (dataRow d now) = false := by
          cases hk : dataKeyIs e (dataRow d now) with
          | false => rfl
          | true =>
            exfalso
            have hkey := (dataKeyIs_dataRow d e now).mp hk
            have : t.any (dataKeyIs d) = true := by
              rw [List.any_eq_true] at he ⊢
              obtain ⟨r, hr, hpr⟩ := he
              exact ⟨r, hr, by rw [← dataKeyIs_congr d e hkey]; exact hpr⟩
            exact hc this
        have he2 : (t ++ [dataRow d now]).any (dataKeyIs e) = true := by
          rw [List.any_append]
          simp [he]
        have h1 := hkeys e he2
        rw [← List.append_assoc, h1, List.filter_append]
        simp [hne]

/-- C5: `batch_insert_services` never modifies existing rows (the table is
extended only), rows whose (target_id, port, transport) key is already
occupied in the table are skipped outright (the key's rows are untouched:
first write wins, no merge), and the returned value is exactly the number of
rows the call actually inserted. -/
theorem batch_insert_services_spec (table : List Service) (data : List SvcData)
    (now : Int) :
    ∃ extra,
      batch_insert_services table data now = (table ++ extra, extra.length) ∧
      (batch_insert_services table data now).2 =
        (batch_insert_services table data now).1.length - table.length ∧
      ∀ e ∈ data, table.any (dataKeyIs e) = true →
        (batch_insert_services table data now).1.filter (dataKeyIs e) =
          table.filter (dataKeyIs e) := by
  by_cases hdata : data.isEmpty
  · refine ⟨[], ?_, ?_, ?_⟩ <;> simp [batch_insert_services, hdata]
  · obtain ⟨extra, heq, hkeys⟩ := batch_foldl_spec now data table 0
    have hbatch : batch_insert_services table data now = (table ++ extra, extra.length) := by
      rw [batch_insert_services, if_neg (by simp [hdata]), heq]
      simp
    refine ⟨extra, hbatch, ?_, ?_⟩
    · rw [hbatch]
      simp
    · intro e _ he
      rw [hbatch]
      exact hkeys e he

/-- Witness for C5: inserting two rows, one conflicting with the table and one
fresh, leaves the existing row untouched and returns 1. -/
theorem batch_insert_services_spec_witness :
    ∃ extra,
      batch_insert_services [svcRow 10 22 "tcp" ⟨1, some "sshd", none, none, [], 5, 50⟩]
          [⟨2, 10, 22, "tcp", none, none, none, [], 9⟩,
           ⟨2, 10, 80, "tcp", none, none, none, [], 3⟩] 60 =
        ([svcRow 10 22 "tcp" ⟨1, some "sshd", none, none, [], 5, 50⟩] ++ extra,
          extra.length) ∧
      (batch_insert_services [svcRow 10 22 "tcp" ⟨1, some "sshd", none, none, [], 5, 50⟩]
          [⟨2, 10, 22, "tcp", none, none, none, [], 9⟩,
           ⟨2, 10, 80, "tcp", none, none, none, [], 3⟩] 60).1.filter
          (dataKeyIs ⟨2, 10, 22, "tcp", none, none, none, [], 9⟩) =
        [svcRow 10 22 "tcp" ⟨1, some "sshd", none, none, [], 5, 50⟩].filter
          (dataKeyIs ⟨2, 10, 22, "tcp", none, none, none, [], 9⟩) := by
  obtain ⟨extra, h1, _, h3⟩ := batch_insert_services_spec
    [svcRow 10 22 "tcp" ⟨1, some "sshd", none, none, [], 5, 50⟩]
    [⟨2, 10, 22, "tcp", none, none, none, [], 9⟩,
     ⟨2, 10, 80, "tcp", none, none, none, [], 3⟩] 60
  exact ⟨extra, h1,
    h3 ⟨2, 10, 22, "tcp", none, none, none, [], 9⟩ (by simp) (by decide)⟩

/-! ## C7: insert_service keeps one row per key, overwriting vulns/risk and
merging descriptive fields -/

/-- Boolean version of `filter_map_update` for Bool-valued key tests. -/
theorem filter_map_update_bool {α : Type} (p : α → Bool) (f : α → α)
    (hpres : ∀ a, p (f a) = p a) (l : List α) :
    (l.map (fun a => if p a then f a else a)).filter p = (l.filter p).map f := by
  induction l with
  | nil => rfl
  | cons x xs ih =>
    cases hx : p x with
    | true => simp [hx, hpres x, ih]
    | false => simp [hx, ih]

/-- The merge of `insert_service` leaves the key columns unchanged. -/
theorem svcKeyIs_mergeCall (t p : Int) (tr : String) (r : Service) (c : SvcCall) :
    svcKeyIs t p tr (mergeCall r c) = svcKeyIs t p tr r := by
  simp [svcKeyIs, mergeCall]

/-- A freshly inserted service row occupies its key. -/
theorem svcKeyIs_svcRow (t p : Int) (tr : String) (c : SvcCall) :
    svcKeyIs t p tr (svcRow t p tr c) = true := by
  simp [svcKeyIs, svcRow]

/-- `insert_service` on a free key appends the new row. -/
theorem insert_service_fresh (table : List Service) (t p : Int) (tr : String)
    (c : SvcCall) (hrisk : 0 ≤ c.risk_score ∧ c.risk_score ≤ 100)
    (hfree : table.filter (svcKeyIs t p tr) = []) :
    insert_service table t p tr c = Except.ok (table ++ [svcRow t p tr c]) := by
  have hany : table.any (svcKeyIs t p tr) = false := by
    rw [List.any_eq_false]
    exact List.filter_eq_nil_iff.mp hfree
  simp [insert_service, hrisk.1, hrisk.2, hany]

/-- `insert_service` on an occupied key (unique, by the schema's unique index)
updates that row in place with the merge. -/
theorem insert_service_existing (table : List Service) (t p : Int) (tr : String)
    (c : SvcCall) (r : Service)
    (hrisk : 0 ≤ c.risk_score ∧ c.risk_score ≤ 100)
    (hone : table.filter (svcKeyIs t p tr) = [r]) :
    ∃ t2, insert_service table t p tr c = Except.ok t2 ∧
      t2.filter (svcKeyIs t p tr) = [mergeCall r c] := by
  have hany : table.any (svcKeyIs t p tr) = true := by
    rw [List.any_eq_true]
    have hmem : r ∈ table.filter (svcKeyIs t p tr) := by
      rw [hone]; exact List.mem_singleton.mpr rfl
    have hm := List.mem_filter.mp hmem
    exact ⟨r, hm.1, hm.2⟩
  refine ⟨table.map (fun x => if svcKeyIs t p tr x then mergeCall x c else x), ?_, ?_⟩
  · simp [insert_service, hrisk.1, hrisk.2, hany]
  · rw [filter_map_update_bool _ (fun x => mergeCall x c)
      (fun a => svcKeyIs_mergeCall t p tr a c), hone]
    rfl

/-- Running a call sequence against a table holding the key's single row
folds the merges onto that row. -/
theorem insertSeq_existing (t p : Int) (tr : String) (cs : List SvcCall) :
    ∀ (table : List Service) (r : Service),
      (∀ c ∈ cs, 0 ≤ c.risk_score ∧ c.risk_score ≤ 100) →
      table.filter (svcKeyIs t p tr) = [r] →
      ∃ t2, insertSeq table t p tr cs = Except.ok t2 ∧
        t2.filter (svcKeyIs t p tr) = [cs.foldl mergeCall r] := by
  induction cs with
  | nil =>
    intro table r _ hone
    exact ⟨table, rfl, by simpa using hone⟩
  | cons c cs ih =>
    intro table r hval hone
    obtain ⟨t2, heq, hfil⟩ :=
      insert_service_existing table t p tr c r (hval c (by simp)) hone
    obtain ⟨t3, heq3, hfil3⟩ :=
      ih t2 (mergeCall r c) (fun x hx => hval x (by simp [hx])) hfil
    refine ⟨t3, ?_, ?_⟩
    · simp only [insertSeq, heq]
      exact heq3
    · simpa using hfil3

/-- The folded merge's vulns come from the last call. -/
theorem foldl_mergeCall_vulns (cs : List SvcCall) (l : SvcCall)
    (h : cs.getLast? = some l) :
    ∀ r : Service, (cs.foldl mergeCall r).vulns = l.vulns := by
  induction cs with
  | nil => simp at h
  | cons c cs ih =>
    intro r
    cases cs with
    | nil =>
      simp at h
      subst h
      rfl
    | cons d ds =>
      rw [List.getLast?_cons_cons] at h
      rw [List.foldl_cons]
      exact ih h (mergeCall r c)

/-- The folded merge's risk score comes from the last call. -/
theorem foldl_mergeCall_risk (cs : List SvcCall) (l : SvcCall)
    (h : cs.getLast? = some l) :
    ∀ r : Service, (cs.foldl mergeCall r).risk_score = l.risk_score := by
  induction cs with
  | nil => simp at h
  | cons c cs ih =>
    intro r
    cases cs with
    | nil =>
      simp at h
      subst h
      rfl
    | cons d ds =>
      rw [List.getLast?_cons_cons] at h
      rw [List.foldl_cons]
      exact ih h (mergeCall r c)

/-- The folded merge's product is the coalesce-fold of the incoming products
over the starting value. -/
theorem foldl_mergeCall_product (cs : List SvcCall) :
    ∀ r : Service, (cs.foldl mergeCall r).product =
      (cs.map (fun x => x.product)).foldl (fun acc v => coalesce v acc) r.product := by
  induction cs with
  | nil => intro r; rfl
  | cons c cs ih =>
    intro r
    rw [List.foldl_cons, ih, List.map_cons, List.foldl_cons]
    rfl

/-- The folded merge's version is the coalesce-fold of the incoming versions. -/
theorem foldl_mergeCall_version (cs : List SvcCall) :
    ∀ r : Service, (cs.foldl mergeCall r).version =
      (cs.map (fun x => x.version)).foldl (fun acc v => coalesce v acc) r.version := by
  induction cs with
  | nil => intro r; rfl
  | cons c cs ih =>
    intro r
    rw [List.foldl_cons, ih, List.map_cons, List.foldl_cons]
    rfl

/-- The folded merge's cpe is the coalesce-fold of the incoming cpes. -/
theorem foldl_mergeCall_cpe (cs : List SvcCall) :
    ∀ r : Service, (cs.foldl mergeCall r).cpe =
      (cs.map (fun x => x.cpe)).foldl (fun acc v => coalesce v acc) r.cpe := by
  induction cs with
  | nil => intro r; rfl
  | cons c cs ih =>
    intro r
    rw [List.foldl_cons, ih, List.map_cons, List.foldl_cons]
    rfl

/-- `coalesce a none = a`. -/
theorem coalesce_none_right {α : Type} (a : Option α) : coalesce a none = a := by
  cases a <;> rfl

/-- C7: for any sequence of `insert_service` calls sharing a (target_id, port,
transport) key whose risk scores are all valid, starting from a table with no
row at that key, exactly one services row exists for the key afterwards; its
vulns and risk_score equal the last call's values, and its product, version
and cpe hold the most recent non-null incoming value (none if every call left
the field null). -/
theorem insert_service_upsert_unique (table : List Service) (t p : Int)
    (tr : String) (c : SvcCall) (cs : List SvcCall)
    (hval : ∀ x ∈ c :: cs, 0 ≤ x.risk_score ∧ x.risk_score ≤ 100)
    (hfresh : table.filter (svcKeyIs t p tr) = []) :
    ∃ t2 fin last, insertSeq table t p tr (c :: cs) = Except.ok t2 ∧
      t2.filter (svcKeyIs t p tr) = [fin] ∧
      (c :: cs).getLast? = some last ∧
      fin.vulns = last.vulns ∧
      fin.risk_score = last.risk_score ∧
      fin.product = lastSome ((c :: cs).map (fun x => x.product)) ∧
      fin.version = lastSome ((c :: cs).map (fun x => x.version)) ∧
      fin.cpe = lastSome ((c :: cs).map (fun x => x.cpe)) := by
  have h1 := insert_service_fresh table t p tr c (hval c (by simp)) hfresh
  have hfil1 : (table ++ [svcRow t p tr c]).filter (svcKeyIs t p tr) =
      [svcRow t p tr c] := by
    rw [List.filter_append, hfresh]
    simp [svcKeyIs_svcRow]
  obtain ⟨t2, heq2, hfil2⟩ := insertSeq_existing t p tr cs
    (table ++ [svcRow t p tr c]) (svcRow t p tr c)
    (fun x hx => hval x (by simp [hx])) hfil1
  obtain ⟨last, hlast⟩ : ∃ last, (c :: cs).getLast? = some last := by
    cases hl : (c :: cs).getLast? with
    | none => exact absurd hl (by simp)
    | some l => exact ⟨l, rfl⟩
  refine ⟨t2, cs.foldl mergeCall (svcRow t p tr c), last, ?_, hfil2, hlast, ?_, ?_, ?_, ?_, ?_⟩
  · simp only [insertSeq, h1]
    exact heq2
  · cases cs with
    | nil =>
      simp at hlast
      subst hlast
      rfl
    | cons d ds =>
      rw [List.getLast?_cons_cons] at hlast
      exact foldl_mergeCall_vulns _ _ hlast _
  · cases cs with
    | nil =>
      simp at hlast
      subst hlast
      rfl
    | cons d ds =>
      rw [List.getLast?_cons_cons] at hlast
      exact foldl_mergeCall_risk _ _ hlast _
  · rw [foldl_mergeCall_product]
    show _ = ((c :: cs).map (fun x => x.product)).foldl (fun acc v => coalesce v acc) none
    rw [List.map_cons, List.foldl_cons]
    rw [show (svcRow t p tr c).product = coalesce c.product none from
      (coalesce_none_right c.product).symm]
  · rw [foldl_mergeCall_version]
    show _ = ((c :: cs).map (fun x => x.version)).foldl (fun acc v => coalesce v acc) none
    rw [List.map_cons, List.foldl_cons]
    rw [show (svcRow t p tr c).version = coalesce c.version none from
      (coalesce_none_right c.version).symm]
  · rw [foldl_mergeCall_cpe]
    show _ = ((c :: cs).map (fun x => x.cpe)).foldl (fun acc v => coalesce v acc) none
    rw [List.map_cons, List.foldl_cons]
    rw [show (svcRow t p tr c).cpe = coalesce c.cpe none from
      (coalesce_none_right c.cpe).symm]

/-- Witness for C7: two calls on key (1, 5432, tcp) — the second with a null
product and fresh vulns — leave one row whose vulns/risk are the second
call's and whose product survives from the first. -/
theorem insert_service_upsert_unique_witness :
    ∃ t2 fin last,
      insertSeq [] 1 5432 "tcp"
          [⟨1, some "postgres", none, none, ["CVE-1"], 10, 100⟩,
           ⟨2, none, some "15.2", none, ["CVE-2"], 20, 200⟩] = Except.ok t2 ∧
      t2.filter (svcKeyIs 1 5432 "tcp") = [fin] ∧
      ([⟨1, some "postgres", none, none, ["CVE-1"], 10, 100⟩,
        ⟨2, none, some "15.2", none, ["CVE-2"], 20, 200⟩] : List SvcCall).getLast? =
        some last ∧
      fin.vulns = last.vulns ∧
      fin.risk_score = last.risk_score ∧
      fin.product = lastSome
        (([⟨1, some "postgres", none, none, ["CVE-1"], 10, 100⟩,
           ⟨2, none, some "15.2", none, ["CVE-2"], 20, 200⟩] : List SvcCall).map
          (fun x => x.product)) ∧
      fin.version = lastSome
        (([⟨1, some "postgres", none, none, ["CVE-1"], 10, 100⟩,
           ⟨2, none, some "15.2", none, ["CVE-2"], 20, 200⟩] : List SvcCall).map
          (fun x => x.version)) ∧
      fin.cpe = lastSome
        (([⟨1, some "postgres", none, none, ["CVE-1"], 10, 100⟩,
           ⟨2, none, some "15.2", none, ["CVE-2"], 20, 200⟩] : List SvcCall).map
          (fun x => x.cpe)) :=
  insert_service_upsert_unique [] 1 5432 "tcp"
    ⟨1, some "postgres", none, none, ["CVE-1"], 10, 100⟩
    [⟨2, none, some "15.2", none, ["CVE-2"], 20, 200⟩]
    (by decide) rfl

/-! ## C3: the raw record store is idempotent under resubmission -/

/-- A replace-one-with-upsert of a document under its own key, on a store
holding at most one document with that key, leaves exactly that document at
the key. -/
theorem filter_replaceOne (k : String) (d : RawDoc) (hd : d.key = k) :
    ∀ store : List RawDoc,
      (store.filter (fun x => x.key = k)).length ≤ 1 →
      (replaceOne store k d).filter (fun x => x.key = k) = [d] := by
  intro store
  induction store with
  | nil =>
    intro _
    simp [replaceOne, hd]
  | cons x xs ih =>
    intro hinv
    by_cases hx : x.key = k
    · have hxs : xs.filter (fun y => y.key = k) = [] := by
        rw [List.filter_cons_of_pos (by simp [hx])] at hinv
        simp only [List.length_cons] at hinv
        have h0 : (xs.filter (fun y => y.key = k)).length = 0 := by omega
        exact List.length_eq_zero.mp h0
      simp only [replaceOne]
      rw [if_pos hx, List.filter_cons_of_pos (by simp [hd]), hxs]
    · simp only [replaceOne]
      rw [if_neg hx, List.filter_cons_of_neg (by simp [hx])]
      have hinv2 : (xs.filter (fun y => y.key = k)).length ≤ 1 := by
        rw [List.filter_cons_of_neg (by simp [hx])] at hinv
        exact hinv
      exact ih hinv2

/-- C3: submitting two records with the same (address, port, observation-time)
triple — auxiliary fields free to differ — to a store holding at most one
document at that digest (true of every store built by saves) leaves exactly
one document at the digest, carrying the later record's fields and metadata. -/
theorem save_raw_banner_idempotent (store : List RawDoc) (b1 b2 : Banner)
    (p1 p2 : String) (hip : b1.ip = b2.ip) (hport : b1.port = b2.port)
    (htime : b1.obsTime = b2.obsTime)
    (hinv : (store.filter (fun x => x.key = bannerKey b2)).length ≤ 1) :
    (save_raw_banner (save_raw_banner store b1 p1) b2 p2).filter
        (fun x => x.key = bannerKey b2) =
      [{ key := bannerKey b2, banner := b2, profile := p2, processed := false }] := by
  have hkey : bannerKey b1 = bannerKey b2 := by
    rw [bannerKey, bannerKey, hip, hport, htime]
  have h1 : (save_raw_banner store b1 p1).filter
      (fun x => x.key = bannerKey b2) =
      [{ key := bannerKey b2, banner := b1, profile := p1, processed := false }] := by
    rw [save_raw_banner, hkey]
    exact filter_replaceOne (bannerKey b2) _ rfl store hinv
  rw [save_raw_banner]
  refine filter_replaceOne (bannerKey b2) _ rfl (save_raw_banner store b1 p1) ?_
  rw [h1]
  simp

/-- First submission of the duplicated observation (with auxiliary fields). -/
def bannerD1 : Banner :=
  { ip := "1.2.3.4", port := 22, obsTime := "2024-01-01",
    location := some (some "US"), aux := [("product", "sshd")] }

/-- Resubmission of the same (address, port, observation-time) with different
auxiliary fields. -/
def bannerD2 : Banner :=
  { ip := "1.2.3.4", port := 22, obsTime := "2024-01-01", location := none,
    aux := [("product", "openssh")] }

/-- The document the resubmission must leave behind. -/
def docD2 : RawDoc :=
  { key := bannerKey bannerD2, banner := bannerD2, profile := "prof2",
    processed := false }

/-- Witness for C3: on an empty store, saving bannerD1 then bannerD2 leaves
exactly the bannerD2 document at the shared digest. -/
theorem save_raw_banner_idempotent_witness :
    (save_raw_banner (save_raw_banner [] bannerD1 "prof1") bannerD2 "prof2").filter
        (fun x => x.key = bannerKey bannerD2) = [docD2] :=
  save_raw_banner_idempotent [] bannerD1 bannerD2 "prof1" "prof2" rfl rfl rfl
    (by simp)

/-! ## Collector lemmas shared by C2 and C4 -/

/-- The streaming loop writes only to the raw store: aggregates and history
are untouched while it runs. -/
theorem streamLoop_frame (name : String) (saveFails : Banner → Bool)
    (shouldExit : Nat → Bool) (banners : List Banner) :
    ∀ (db : IntelDB) (i : Nat) (total : Int) (dist : List (String × Int)),
      (streamLoop db name saveFails shouldExit banners i total dist).1.stats =
        db.stats ∧
      (streamLoop db name saveFails shouldExit banners i total dist).1.history =
        db.history := by
  induction banners with
  | nil =>
    intro db i total dist
    exact ⟨rfl, rfl⟩
  | cons b bs ih =>
    intro db i total dist
    simp only [streamLoop]
    by_cases h1 : shouldExit i
    · simp [h1]
    · by_cases h2 : saveFails b
      · simp [h1, h2]
      · simpa [h1, h2] using
          ih { db with raw := save_raw_banner db.raw b name } (i + 1) (total + 1)
            (bumpCountry dist (countryOf b))

/-- After writing the aggregate, the profile's checkpoint reads back as the
written timestamp. -/
theorem upsertStat_find (name : String) (st : IntelStat) (hst : st.profile = name) :
    ∀ stats : List IntelStat,
      (upsertStat stats name st).find? (fun s => s.profile = name) = some st := by
  intro stats
  induction stats with
  | nil => simp [upsertStat, hst]
  | cons x xs ih =>
    by_cases hx : x.profile = name
    · simp [upsertStat, hx, hst]
    · simp only [upsertStat]
      rw [if_neg hx, List.find?_cons_of_neg _ (by simp [hx])]
      exact ih

/-- The checkpoint read immediately after `update_intel_stats` is the written
timestamp. -/
theorem get_last_checkpoint_after_update (db : IntelDB) (name : String)
    (total : Int) (countries : List (String × Int)) (now : Int) :
    get_last_checkpoint (update_intel_stats db name total countries now) name =
      some now := by
  rw [get_last_checkpoint, update_intel_stats]
  rw [upsertStat_find name _ rfl db.stats]
  rfl

/-- `log_intel_history` does not touch the aggregates. -/
theorem log_intel_history_stats (db : IntelDB) (name : String) (count now : Int) :
    (log_intel_history db name count now).stats = db.stats := rfl

/-! ## C2: checkpoints never decrease, and error passes advance nothing -/

/-- C2: across a profile pass, (a) assuming wall-clock time has not gone
backwards (the stored checkpoint is at most now), the checkpoint read after
the pass is never below the checkpoint read before it; and (b) whenever the
pass failed (its error count is 1 — a record save raised, or the stream
itself raised after its yielded records), the aggregates and the history are
exactly as before: update_intel_stats and log_intel_history ran only when the
streaming loop finished without raising. -/
theorem process_profile_checkpoint_monotone (db : IntelDB) (name : String)
    (banners : List Banner) (streamRaises : Bool) (saveFails : Banner → Bool)
    (shouldExit : Nat → Bool) (now : Int) :
    (∀ old, get_last_checkpoint db name = some old → old ≤ now →
      ∀ c, get_last_checkpoint
          (process_profile db name banners streamRaises saveFails shouldExit now).1
          name = some c →
        old ≤ c) ∧
    ((process_profile db name banners streamRaises saveFails shouldExit now).2 = 1 →
      (process_profile db name banners streamRaises saveFails shouldExit now).1.stats =
        db.stats ∧
      (process_profile db name banners streamRaises saveFails shouldExit now).1.history =
        db.history) := by
  obtain ⟨⟨db1, total, dist, ex⟩, hres⟩ :
      ∃ r, streamLoop db name saveFails shouldExit banners 0 0 [] = r := ⟨_, rfl⟩
  have hframe := streamLoop_frame name saveFails shouldExit banners db 0 0 []
  rw [hres] at hframe
  have hcp1 : get_last_checkpoint db1 name = get_last_checkpoint db name := by
    rw [get_last_checkpoint, get_last_checkpoint, hframe.1]
  cases ex with
  | saveRaised =>
    simp only [process_profile, hres]
    refine ⟨?_, fun _ => ⟨hframe.1, hframe.2⟩⟩
    intro old hold hle c hc
    rw [hcp1, hold] at hc
    cases hc
    exact le_refl old
  | broke =>
    simp only [process_profile, hres]
    refine ⟨?_, by intro h; cases h⟩
    intro old hold hle c hc
    rw [get_last_checkpoint, log_intel_history_stats, ← get_last_checkpoint,
      get_last_checkpoint_after_update] at hc
    cases hc
    exact hle
  | finished =>
    cases hsr : streamRaises with
    | true =>
      have hred1 : (process_profile db name banners true saveFails
          shouldExit now).1 = db1 := by
        simp [process_profile, hres]
      refine ⟨?_, fun _ => by rw [hred1]; exact ⟨hframe.1, hframe.2⟩⟩
      intro old hold hle c hc
      rw [hred1, hcp1, hold] at hc
      cases hc
      exact le_refl old
    | false =>
      have hred1 : (process_profile db name banners false saveFails
          shouldExit now).1 =
          log_intel_history (update_intel_stats db1 name total dist now) name
            total now := by
        simp [process_profile, hres]
      have hred2 : (process_profile db name banners false saveFails
          shouldExit now).2 = 0 := by
        simp [process_profile, hres]
      refine ⟨?_, fun h => absurd (hred2.symm.trans h) (by decide)⟩
      intro old hold hle c hc
      rw [hred1, get_last_checkpoint, log_intel_history_stats,
        ← get_last_checkpoint, get_last_checkpoint_after_update] at hc
      cases hc
      exact hle

/-- Witness for C2: profile "p" with stored checkpoint 10, its stream raising
at once — the aggregates survive unchanged, and the checkpoint (still 10) has
not decreased. -/
theorem process_profile_checkpoint_monotone_witness :
    (process_profile cpIntelDB "p" [] true (fun _ => false) (fun _ => false)
        20).1.stats = cpIntelDB.stats ∧
    (10 : Int) ≤ 10 := by
  have h := process_profile_checkpoint_monotone cpIntelDB "p" [] true
    (fun _ => false) (fun _ => false) 20
  exact ⟨(h.2 (by decide)).1, h.1 10 (by decide) (by decide) 10 (by decide)⟩

/-! ## C4: a single record's save failure aborts the whole profile pass -/

/-- C4 counterexample: with two records in the stream and the first one's
persistence raising, the pass stores nothing further and writes no aggregate:
the second record is never processed — the failure aborts the whole pass
rather than continuing with the next record. -/
theorem process_profile_save_failure_aborts :
    process_profile emptyIntelDB "p" [bannerA, bannerB] false
        (fun b => b.ip = "10.0.0.1") (fun _ => false) 100 =
      (emptyIntelDB, 1) := by
  rfl

/-- The streaming loop up to a failing save: the prefix before the failing
record is persisted, the failing record stops the loop with a raised
exception. -/
theorem streamLoop_save_failure (name : String) (saveFails : Banner → Bool)
    (shouldExit : Nat → Bool) (b : Banner) (post : List Banner)
    (hb : saveFails b = true) (hexit : ∀ i, shouldExit i = false) :
    ∀ (pre : List Banner), (∀ x ∈ pre, saveFails x = false) →
      ∀ (db : IntelDB) (i : Nat) (total : Int) (dist : List (String × Int)),
        ∃ total2 dist2,
          streamLoop db name saveFails shouldExit (pre ++ b :: post) i total dist =
            (saveAll db pre name, total2, dist2, LoopExit.saveRaised) := by
  intro pre
  induction pre with
  | nil =>
    intro _ db i total dist
    refine ⟨total, dist, ?_⟩
    simp only [List.nil_append, streamLoop, hexit i, hb]
    rfl
  | cons x xs ih =>
    intro hpre db i total dist
    have hx : saveFails x = false := hpre x (by simp)
    obtain ⟨total2, dist2, heq⟩ :=
      ih (fun y hy => hpre y (by simp [hy]))
        { db with raw := save_raw_banner db.raw x name } (i + 1) (total + 1)
        (bumpCountry dist (countryOf x))
    refine ⟨total2, dist2, ?_⟩
    simp only [List.cons_append, streamLoop, hexit i, hx]
    simpa [saveAll] using heq

/-- C4 amended: when persisting one record raises, the exception escapes the
streaming loop to the profile-level handler: the records before it stay
persisted, the failing record and everything after it are not, no aggregate
or history is written, and the pass returns with its error counted (the
collector then proceeds to the next profile). -/
theorem process_profile_save_failure_spec (db : IntelDB) (name : String)
    (pre : List Banner) (b : Banner) (post : List Banner) (streamRaises : Bool)
    (saveFails : Banner → Bool) (shouldExit : Nat → Bool) (now : Int)
    (hb : saveFails b = true) (hpre : ∀ x ∈ pre, saveFails x = false)
    (hexit : ∀ i, shouldExit i = false) :
    process_profile db name (pre ++ b :: post) streamRaises saveFails shouldExit
        now = (saveAll db pre name, 1) := by
  obtain ⟨total2, dist2, heq⟩ :=
    streamLoop_save_failure name saveFails shouldExit b post hb hexit pre hpre
      db 0 0 []
  simp only [process_profile, heq]

/-- Witness for C4's amended theorem: saving bannerC succeeds, bannerA's save
raises — only bannerC is persisted and the error is counted. -/
theorem process_profile_save_failure_spec_witness :
    process_profile emptyIntelDB "p" ([bannerC] ++ bannerA :: [bannerB]) false
        (fun b => b.ip = "10.0.0.1") (fun _ => false) 100 =
      (saveAll emptyIntelDB [bannerC] "p", 1) :=
  process_profile_save_failure_spec emptyIntelDB "p" [bannerC] bannerA [bannerB]
    false (fun b => b.ip = "10.0.0.1") (fun _ => false) 100 (by decide)
    (by decide) (fun _ => rfl)

end ShodanMonitor
